import Mathlib

/-!
Shallow embedding of the numeric pipeline of the
Limit-Order-Book-Analysis repository (file `lib/lob-data.ts`):
the market data generator `generateLOBData`, the feature extractor
`calculateFeatures`, the analysis stage `runTimeSeriesAnalysis` and its
nested metrics helper `calcMetrics`.

Modelling conventions:
* JS `number` arithmetic is modelled by exact rationals (`ℚ`).
* `Math.round` is `jsRound` below (round half toward +∞, which is the
  JS semantics for all finite inputs).
* The source draws randomness from `Math.random()` in two ways: directly
  (order counts, trade side, trade size) and through the Box-Muller
  helper `gaussianRandom()`.  Box-Muller involves `ln`/`cos`, which have
  no rational evaluation, so the simulator is parametrised by the stream
  `g : ℕ → ℚ` of successive values returned by `gaussianRandom()` and by
  the stream `u : ℕ → ℚ` of the directly consumed uniform draws.
  Each tick `i` consumes `g (13*i) .. g (13*i+12)` and
  `u (12*i) .. u (12*i+11)`, in the source's call order.
  Note that every real number is a possible value of
  `gaussianRandom()`; in particular a uniform source whose second
  Box-Muller draw is exactly `1/4` makes `gaussianRandom()` return
  exactly `0` (`cos (π/2) = 0`).
* `Math.sin(i / 1000)` is transcendental, so the simulator also takes
  the stream `sv : ℕ → ℚ` of its per-tick values; `sv` only ever feeds
  the order-flow imbalance, which influences level sizes and the trade
  side but no price field.
* Timestamps: the source stores `new Date(start + i*500).toISOString()`;
  the embedding stores the integer `startMs + i*500` (the ISO rendering
  is injective in it and no claim inspects its format).
* Out-of-range JS indexing yields `undefined` and propagates `NaN`;
  the embedding uses `List.getD` with a default.  Every theorem below
  only evaluates such accesses in bounds, except where a comment notes
  the (unreachable or irrelevant) junk value.
-/

namespace LOB

/-- JS `Math.round`: round half toward positive infinity. -/
def jsRound (x : ℚ) : ℤ := ⌊x + 1/2⌋

/-- Rounding to 2 decimals, `Math.round(x * 100) / 100` in the source. -/
def round2 (x : ℚ) : ℚ := (jsRound (x * 100) : ℚ) / 100

/-- Rounding to 4 decimals, `Math.round(x * 10000) / 10000`. -/
def round4 (x : ℚ) : ℚ := (jsRound (x * 10000) : ℚ) / 10000

/-- Rounding to 6 decimals, `Math.round(x * 1000000) / 1000000`. -/
def round6 (x : ℚ) : ℚ := (jsRound (x * 1000000) : ℚ) / 1000000

/-- Rounding to 8 decimals, `Math.round(x * 100000000) / 100000000`. -/
def round8 (x : ℚ) : ℚ := (jsRound (x * 100000000) : ℚ) / 100000000

/-- One price level of the book (`OrderLevel` in the source). -/
structure OrderLevel where
  price : ℚ
  size : ℚ
  orders : ℤ
deriving DecidableEq, Repr, Inhabited

/-- The `lastTrade` sub-record; `side := true` encodes `"buy"`. -/
structure LastTrade where
  price : ℚ
  size : ℚ
  side : Bool
deriving DecidableEq, Repr, Inhabited

/-- One order-book snapshot (`LOBRecord` in the source). -/
structure LOBRecord where
  timestamp : ℕ
  symbol : String
  midPrice : ℚ
  spread : ℚ
  bidLevels : List OrderLevel
  askLevels : List OrderLevel
  totalBidVolume : ℚ
  totalAskVolume : ℚ
  orderImbalance : ℚ
  volatility : ℚ
  lastTrade : LastTrade
deriving DecidableEq, Repr, Inhabited

/-- One feature vector (`FeatureRecord` in the source). -/
structure FeatureRecord where
  timestamp : ℕ
  midPrice : ℚ
  spread : ℚ
  orderFlowImbalance : ℚ
  depthImbalance : ℚ
  priceMomentum : ℚ
  priceVolatility : ℚ
  spreadChange : ℚ
  vwapBid : ℚ
  vwapAsk : ℚ
  totalBidVolume : ℚ
  totalAskVolume : ℚ
  volatility : ℚ
  futureReturn : ℚ
  futureDirection : ℚ
deriving DecidableEq, Repr, Inhabited

/-- Epoch milliseconds of the start timestamp
`new Date("2024-01-15T09:30:00")` (timezone-dependent in the source;
no claim depends on the concrete value). -/
def startMs : ℕ := 1705311000000

/-- Volatility update of one tick (source line
`currentVolatility = volatilityPersistence * currentVolatility +
(1 - volatilityPersistence) * volatility * Math.abs(shock)` with
`volatilityPersistence = 0.95` and base volatility `0.0002`). -/
def tickVol (vol shock : ℚ) : ℚ := 0.95 * vol + (1 - 0.95) * 0.0002 * |shock|

/-- Price update of one tick: `priceChange = z * vol' * price;`
`price = Math.max(price + priceChange, 1.0)`.  `z` is the normal draw
used for the price move (a separate call to `gaussianRandom()`). -/
def tickPrice (price vol' z : ℚ) : ℚ := max (price + z * vol' * price) 1

/-- Dynamic spread of one tick:
`spread = spreadBase * (1 + (currentVolatility / volatility) * 2)`
with `spreadBase = 0.01` and base volatility `0.0002`. -/
def tickSpread (vol' : ℚ) : ℚ := 0.01 * (1 + vol' / 0.0002 * 2)

/-- Order-flow imbalance of one tick:
`Math.max(-0.8, Math.min(0.8, Math.sin(i / 1000) * 0.3 +
gaussianRandom() * 0.2))`; `sv` is the sine value, `z` the draw. -/
def tickImb (sv z : ℚ) : ℚ := max (-0.8) (min 0.8 (sv * 0.3 + z * 0.2))

/-- One bid level (`bidLevels.push` in the source); `gz` is the normal
draw for the size, `uz` the uniform draw for the order count, `L` the
level index (a JS number, hence `ℚ`). -/
def mkBidLevel (price spread imb gz uz L : ℚ) : OrderLevel :=
  { price := round2 (price - (spread / 2 + L * spread * 0.5))
    size := max 100 ((jsRound (gz * 200 + 500 * (1 - imb * 0.3) * (1 - L * 0.15)) : ℚ))
    orders := ⌊uz * 10⌋ + 1 }

/-- One ask level (`askLevels.push` in the source). -/
def mkAskLevel (price spread imb gz uz L : ℚ) : OrderLevel :=
  { price := round2 (price + (spread / 2 + L * spread * 0.5))
    size := max 100 ((jsRound (gz * 200 + 500 * (1 + imb * 0.3) * (1 - L * 0.15)) : ℚ))
    orders := ⌊uz * 10⌋ + 1 }

/-- One iteration of the generator loop.  `g`/`u` are the tick-local
gaussian and uniform streams (already shifted to this tick), `sv` the
value of `Math.sin(i / 1000)`, `i` the tick index, `price`/`vol` the
state carried across ticks.  Returns the snapshot and the new state. -/
def genTick (g u : ℕ → ℚ) (sv : ℚ) (i : ℕ) (price vol : ℚ) :
    LOBRecord × ℚ × ℚ :=
  let shock := g 0
  let vol' := tickVol vol shock
  let price' := tickPrice price vol' (g 1)
  let spread := tickSpread vol'
  let imb := tickImb sv (g 2)
  let bids := [mkBidLevel price' spread imb (g 3) (u 0) 0,
               mkBidLevel price' spread imb (g 5) (u 2) 1,
               mkBidLevel price' spread imb (g 7) (u 4) 2,
               mkBidLevel price' spread imb (g 9) (u 6) 3,
               mkBidLevel price' spread imb (g 11) (u 8) 4]
  let asks := [mkAskLevel price' spread imb (g 4) (u 1) 0,
               mkAskLevel price' spread imb (g 6) (u 3) 1,
               mkAskLevel price' spread imb (g 8) (u 5) 2,
               mkAskLevel price' spread imb (g 10) (u 7) 3,
               mkAskLevel price' spread imb (g 12) (u 9) 4]
  let totalBid := (bids.map (·.size)).sum
  let totalAsk := (asks.map (·.size)).sum
  let side := decide (u 10 > 0.5 - imb * 0.2)
  ({ timestamp := startMs + i * 500
     symbol := "AAPL"
     midPrice := round4 price'
     spread := round4 spread
     bidLevels := bids
     askLevels := asks
     totalBidVolume := totalBid
     totalAskVolume := totalAsk
     orderImbalance := round4 imb
     volatility := round6 vol'
     lastTrade :=
       { price := if side then (asks.getD 0 default).price
                  else (bids.getD 0 default).price
         size := ((⌊u 11 * 100⌋ + 1) * 100 : ℤ)
         side := side } },
   price', vol')

/-- The generator loop: `i` is the current tick index, `fuel` the number
of remaining iterations, `price`/`vol` the recursive state. -/
def genAux (g u sv : ℕ → ℚ) : ℕ → ℕ → ℚ → ℚ → List LOBRecord
  | _, 0, _, _ => []
  | i, fuel + 1, price, vol =>
    let t := genTick (fun k => g (13 * i + k)) (fun k => u (12 * i + k))
      (sv i) i price vol
    t.1 :: genAux g u sv (i + 1) fuel t.2.1 t.2.2

/-- The market data generator `generateLOBData(numRecords)`:
`basePrice = 150.0`, volatility seed `0.0002`.  `g`, `u`, `sv` are the
randomness/sine streams described in the header comment. -/
def generateLOBData (g u sv : ℕ → ℚ) (numRecords : ℕ) : List LOBRecord :=
  genAux g u sv 0 numRecords 150 0.0002

/-- Three-valued sign, the value the ternary chain
`x > 0 ? 1 : x < 0 ? -1 : 0` produces. -/
def threeSign (x : ℚ) : ℚ := if x > 0 then 1 else if x < 0 then -1 else 0

/-- The raw (unrounded) future return computed at index `i` of
`calculateFeatures`: `i < data.length - 1 ?
(data[i+1].midPrice - data[i].midPrice) / data[i].midPrice : 0`. -/
def rawFutureReturn (data : List LOBRecord) (i : ℕ) : ℚ :=
  if i < data.length - 1 then
    ((data.getD (i + 1) default).midPrice - (data.getD i default).midPrice) /
      (data.getD i default).midPrice
  else 0

/-- The body of the `calculateFeatures` loop at index `i`
(source lines 158-198), translated clause by clause. -/
def featAt (data : List LOBRecord) (i : ℕ) : FeatureRecord :=
  let record := data.getD i default
  let totalBid := record.totalBidVolume
  let totalAsk := record.totalAskVolume
  let depthImbalance :=
    if totalBid + totalAsk > 0 then (totalBid - totalAsk) / (totalBid + totalAsk) else 0
  let lookbackPrices := ((data.drop (i - 10)).take 10).map (·.midPrice)
  let priceMomentum :=
    (record.midPrice - lookbackPrices.getD 0 0) / lookbackPrices.getD 0 0
  let avgPrice := lookbackPrices.sum / 10
  let priceVolatility := (lookbackPrices.map (fun p => (p - avgPrice) ^ 2)).sum / 10
  let spreadChange := record.spread - (data.getD (i - 1) default).spread
  let vwapBid :=
    if totalBid > 0 then (record.bidLevels.map (fun l => l.price * l.size)).sum / totalBid
    else 0
  let vwapAsk :=
    if totalAsk > 0 then (record.askLevels.map (fun l => l.price * l.size)).sum / totalAsk
    else 0
  let futureReturn := rawFutureReturn data i
  { timestamp := record.timestamp
    midPrice := record.midPrice
    spread := record.spread
    orderFlowImbalance := record.orderImbalance
    depthImbalance := round4 depthImbalance
    priceMomentum := round6 priceMomentum
    priceVolatility := round8 priceVolatility
    spreadChange := round6 spreadChange
    vwapBid := round4 vwapBid
    vwapAsk := round4 vwapAsk
    totalBidVolume := totalBid
    totalAskVolume := totalAsk
    volatility := record.volatility
    futureReturn := round8 futureReturn
    futureDirection := if futureReturn > 0 then 1 else if futureReturn < 0 then -1 else 0 }

/-- The feature extractor `calculateFeatures(data)`: the source loops
`for (i = 10; i < data.length; i++)`, which is the index list
`[10, ..., data.length - 1]`. -/
def calculateFeatures (data : List LOBRecord) : List FeatureRecord :=
  (List.range (data.length - 10)).map fun k => featAt data (k + 10)

/-- One price-forecast point (`arimaResults` entry in the source). -/
structure ArimaPoint where
  timestamp : ℕ
  actual : ℚ
  predicted : ℚ
  error : ℚ
deriving DecidableEq, Repr, Inhabited

/-- One volatility-forecast point (`garchResults` entry).  The source
additionally stores `forecastVolatility = Math.sqrt(condVar)`; the
square root of a rational is irrational, so the embedding stores the
conditional variance and derives `forecastVolatility` below. -/
structure GarchPoint where
  timestamp : ℕ
  actualVolatility : ℚ
  conditionalVariance : ℚ
deriving DecidableEq, Repr, Inhabited

/-- The `forecastVolatility` field of an emitted `garchResults` entry:
`Math.sqrt(condVar)` in the source. -/
noncomputable def forecastVolatility (p : GarchPoint) : ℝ :=
  Real.sqrt (p.conditionalVariance : ℝ)

/-- Volatility regime label. -/
inductive Regime where
  | low
  | normal
  | high
deriving DecidableEq, Repr

/-- One regime point (`volatilityRegimes` entry). -/
structure RegimePoint where
  timestamp : ℕ
  volatility : ℚ
  regime : Regime
deriving DecidableEq, Repr

/-- Error/accuracy statistics (source's nested `calcMetrics` result).
The source also stores `rmse = Math.sqrt(mse)`, derived below. -/
structure Metrics where
  mse : ℚ
  mae : ℚ
  directionAccuracy : ℚ
deriving DecidableEq, Repr, Inhabited

/-- The `rmse` field of a metrics record: `Math.sqrt(mse)`. -/
noncomputable def rmseOf (m : Metrics) : ℝ := Real.sqrt (m.mse : ℝ)

/-- The metrics helper nested in `runTimeSeriesAnalysis`
(source lines 271-286).  `n = actual.length`; for `n < 2` the JS code
divides by `0` (`n = 1` yields `NaN`, `n = 0` yields `NaN` mse); the
embedding's `ℚ` division by zero yields `0` there, and every claim
about this function carries `n ≥ 2`. -/
def calcMetrics (actual predicted : List ℚ) : Metrics :=
  let n := actual.length
  let mse := ((List.range n).map fun i => (actual.getD i 0 - predicted.getD i 0) ^ 2).sum / n
  let mae := ((List.range n).map fun i => |actual.getD i 0 - predicted.getD i 0|).sum / n
  let correctDir := (List.range n).countP fun i =>
    decide (1 ≤ i) &&
      (decide (actual.getD i 0 > actual.getD (i - 1) 0) ==
        decide (predicted.getD i 0 > predicted.getD (i - 1) 0))
  { mse := mse
    mae := mae
    directionAccuracy := (correctDir : ℚ) / ((n : ℚ) - 1) * 100 }

/-- The mid-price series `prices = features.map(f => f.midPrice)`. -/
def pricesOf (features : List FeatureRecord) : List ℚ :=
  features.map (·.midPrice)

/-- The return series
`returns = prices.slice(1).map((p, i) => (p - prices[i]) / prices[i])`. -/
def returnsOf (features : List FeatureRecord) : List ℚ :=
  let ps := pricesOf features
  (List.range (ps.length - 1)).map fun i => (ps.getD (i + 1) 0 - ps.getD i 0) / ps.getD i 0

/-- The train/test split index `Math.floor(prices.length * 0.8)`
(the float product `len * 0.8` rounds to the exact value `4*len/5`
for every list length arising here). -/
def trainSizeOf (features : List FeatureRecord) : ℕ :=
  4 * features.length / 5

/-- Sum of consecutive first differences, the source's
`reduce((s, p, j, arr) => j == 0 ? s : s + (p - arr[j-1]), 0)`. -/
def sumDiffs : List ℚ → ℚ
  | [] => 0
  | [_] => 0
  | a :: b :: t => (b - a) + sumDiffs (b :: t)

/-- The AR prediction made from the current `history`:
`lastPrice + (history.slice(-10) first differences sum) / 9 * 0.7`.
`history[history.length - 1]` is modelled by `getLastD 0` (the source
yields `NaN` on an empty history; every claim below keeps the history
nonempty). -/
def arimaStep (history : List ℚ) : ℚ :=
  history.getLastD 0 + sumDiffs (history.drop (history.length - 10)) / 9 * 0.7

/-- The walk-forward price-forecast loop (source lines 214-234):
consumes the list of test indices, emits one point per index and
appends the realized actual price to `history`. -/
def arimaGo (features : List FeatureRecord) (ps : List ℚ) :
    List ℚ → List ℕ → List ArimaPoint
  | _, [] => []
  | history, i :: rest =>
    let actual := ps.getD i 0
    let predicted := arimaStep history
    { timestamp := (features.getD i default).timestamp
      actual := actual
      predicted := predicted
      error := actual - predicted } ::
      arimaGo features ps (history ++ [actual]) rest

/-- The emitted `arimaResults` stream: history is seeded with the
training prices, the loop runs over `[trainSize, prices.length)`. -/
def arimaResultsOf (features : List FeatureRecord) : List ArimaPoint :=
  let ps := pricesOf features
  let trainSize := trainSizeOf features
  arimaGo features ps (ps.take trainSize)
    (List.range' trainSize (ps.length - trainSize))

/-- The GARCH(1,1) recursion
`condVar = omega + alpha * r * r + beta * condVar` with
`omega = 0.00001`, `alpha = 0.1`, `beta = 0.85`. -/
def garchUpdate (cv r : ℚ) : ℚ := 0.00001 + 0.1 * r * r + 0.85 * cv

/-- The conditional variance after the warm-up pass: seed `0.0001`,
one `garchUpdate` per training-region return (source lines 243-246). -/
def garchWarm (features : List FeatureRecord) : ℚ :=
  ((returnsOf features).take (trainSizeOf features)).foldl garchUpdate 0.0001

/-- The volatility-forecast loop (source lines 248-260): emits the
point for the current conditional variance, then updates it with the
realized return.  The source timestamp is
`features[i + 1]?.timestamp || features[i].timestamp`. -/
def garchGo (features : List FeatureRecord) (rs : List ℚ) :
    ℚ → List ℕ → List GarchPoint
  | _, [] => []
  | cv, i :: rest =>
    { timestamp :=
        if i + 1 < features.length then (features.getD (i + 1) default).timestamp
        else (features.getD i default).timestamp
      actualVolatility := |rs.getD i 0|
      conditionalVariance := cv } ::
      garchGo features rs (garchUpdate cv (rs.getD i 0)) rest

/-- The emitted `garchResults` stream: warm-up over the training
returns, then the loop over `[trainSize, returns.length)`. -/
def garchResultsOf (features : List FeatureRecord) : List GarchPoint :=
  garchGo features (returnsOf features) (garchWarm features)
    (List.range' (trainSizeOf features) ((returnsOf features).length - trainSizeOf features))

/-- The mean volatility, `features.reduce((s, f) => s + f.volatility, 0) / features.length`. -/
def avgVolOf (features : List FeatureRecord) : ℚ :=
  (features.map (·.volatility)).sum / features.length

/-- The regime stream (source lines 263-268): the last 500 features,
labelled against `avgVol` of the whole sequence. -/
def volatilityRegimesOf (features : List FeatureRecord) : List RegimePoint :=
  (features.drop (features.length - 500)).map fun f =>
    { timestamp := f.timestamp
      volatility := f.volatility
      regime :=
        if f.volatility > avgVolOf features * 1.5 then Regime.high
        else if f.volatility < avgVolOf features * 0.5 then Regime.low
        else Regime.normal }

/-- The analysis result record.  The source additionally computes
`metrics.garch = calcMetrics(garch actualVolatility stream,
garch forecastVolatility stream)`; the forecast stream is a list of
square roots (irrational), so it is modelled at the stream level by
`forecastVolatility` above rather than stored here. -/
structure AnalysisResults where
  arimaResults : List ArimaPoint
  garchResults : List GarchPoint
  volatilityRegimes : List RegimePoint
  metricsArima : Metrics
deriving Repr

/-- The analysis stage `runTimeSeriesAnalysis(features)`.  Note the
source performs no input validation and has no error path: every
input produces an `AnalysisResults` value. -/
def runTimeSeriesAnalysis (features : List FeatureRecord) : AnalysisResults :=
  { arimaResults := arimaResultsOf features
    garchResults := garchResultsOf features
    volatilityRegimes := volatilityRegimesOf features
    metricsArima :=
      calcMetrics ((arimaResultsOf features).map (·.actual))
        ((arimaResultsOf features).map (·.predicted)) }

/-! Derived characterisations used by the theorems below. -/

/-- One step of the simulator's price/volatility state recursion, read
off from `genTick`: tick `t` updates the volatility with the gaussian
draw number `13*t` and then the price with the separate, fresh draw
number `13*t + 1`. -/
def stepState (g : ℕ → ℚ) (t : ℕ) (s : ℚ × ℚ) : ℚ × ℚ :=
  (tickPrice s.1 (tickVol s.2 (g (13 * t))) (g (13 * t + 1)),
   tickVol s.2 (g (13 * t)))

/-- The state recursion started at tick index `i` in state `s`. -/
def stateFrom (g : ℕ → ℚ) (i : ℕ) (s : ℚ × ℚ) : ℕ → ℚ × ℚ
  | 0 => s
  | t + 1 => stepState g (i + t) (stateFrom g i s t)

/-- The simulator's (price, volatility) trajectory from the seed state
`(150, 0.0002)`. -/
def stateTraj (g : ℕ → ℚ) (t : ℕ) : ℚ × ℚ := stateFrom g 0 (150, 0.0002) t

/-- The per-snapshot invariants: mid price at least the 1.0 floor,
exactly five levels per side with sizes at least 100, weakly monotone
stored level prices, positive stored spread, stored imbalance within
[-0.8, 0.8]. -/
def snapshotInv (r : LOBRecord) : Prop :=
  1 ≤ r.midPrice ∧
  r.bidLevels.length = 5 ∧ r.askLevels.length = 5 ∧
  (∀ l ∈ r.bidLevels, 100 ≤ l.size) ∧
  (∀ l ∈ r.askLevels, 100 ≤ l.size) ∧
  r.bidLevels.Chain' (fun a b => b.price ≤ a.price) ∧
  r.askLevels.Chain' (fun a b => a.price ≤ b.price) ∧
  0 < r.spread ∧
  -0.8 ≤ r.orderImbalance ∧ r.orderImbalance ≤ 0.8

instance (r : LOBRecord) : Decidable (snapshotInv r) := by
  unfold snapshotInv; infer_instance

/-- The forecast point the walk-forward contract prescribes for test
index `i`: the prediction is computed from the mid prices at indices
strictly before `i` (`ps.take i`), as `lastPrice + 0.7 · avgChange`
with `avgChange` the mean of the 9 first differences over the last 10
of those prices, and the error is `actual - predicted`. -/
def expectedArima (features : List FeatureRecord) (ps : List ℚ) (i : ℕ) : ArimaPoint :=
  { timestamp := (features.getD i default).timestamp
    actual := ps.getD i 0
    predicted :=
      (ps.take i).getLastD 0 + 0.7 * (sumDiffs ((ps.take i).drop (i - 10)) / 9)
    error :=
      ps.getD i 0 -
        ((ps.take i).getLastD 0 + 0.7 * (sumDiffs ((ps.take i).drop (i - 10)) / 9)) }

/-- Closed form of the conditional variance when every processed return
is zero: after `k` zero-return updates from the seed `1e-4`,
`condVar = beta^k · 1e-4 + omega · (1 - beta^k) / (1 - beta)`.
(The claim's formula omits the decaying seed term `beta^k · 1e-4`.) -/
def garchZeroVar (k : ℕ) : ℚ :=
  0.85 ^ k * 0.0001 + 0.00001 * (1 - 0.85 ^ k) / (1 - 0.85)

/-- Modelled from the spec sentence of claim C3: direction-accuracy
count with the three-valued sign function, matching a zero change only
with a zero change.  This is what the claim asserts the code computes. -/
def directionAccuracySpec (a p : List ℚ) : ℚ :=
  100 * (((List.range a.length).countP fun i =>
    decide (1 ≤ i) &&
      decide (threeSign (a.getD i 0 - a.getD (i - 1) 0) =
        threeSign (p.getD i 0 - p.getD (i - 1) 0))) : ℚ) /
    ((a.length : ℚ) - 1)

/-- The boolean-direction match count that `calcMetrics` actually
computes, phrased over the zipped consecutive pairs of both streams:
step `i` matches iff `actual` strictly increased exactly when
`predicted` strictly increased. -/
def dirMatchCount (a p : List ℚ) : ℕ :=
  ((a.tail.zip a).zip (p.tail.zip p)).countP fun q =>
    decide (q.1.1 > q.1.2) == decide (q.2.1 > q.2.2)

/-! Concrete inputs used by witnesses and counterexamples. -/

/-- The all-zero stream.  As the gaussian stream it is realized by any
uniform source whose second Box-Muller draw is always `1/4`
(`gaussianRandom()` then returns `√(-2 ln u) · cos(π/2) = 0` exactly). -/
def zeroStream : ℕ → ℚ := fun _ => 0

/-- A gaussian stream whose tick-0 volatility draw is `0` and whose
tick-0 price draw is `1`. -/
def gOneStream : ℕ → ℚ := fun k => if k = 1 then 1 else 0

/-- A feature record with the given timestamp and mid price and all
other fields zero (only `midPrice` and `timestamp` feed the analysis
stage). -/
def mkFeat (t : ℕ) (p : ℚ) : FeatureRecord :=
  { timestamp := t, midPrice := p, spread := 0, orderFlowImbalance := 0
    depthImbalance := 0, priceMomentum := 0, priceVolatility := 0
    spreadChange := 0, vwapBid := 0, vwapAsk := 0, totalBidVolume := 0
    totalAskVolume := 0, volatility := 0, futureReturn := 0, futureDirection := 0 }

/-- Eleven features with identical mid prices: every return is zero. -/
def fs11z : List FeatureRecord := (List.range 11).map fun t => mkFeat t 100

/-- Six features with linearly growing mid prices: the training region
has only 4 prices, far fewer than the 10 the claim requires. -/
def fs6 : List FeatureRecord := (List.range 6).map fun t => mkFeat t (100 + t)

/-- Thirteen features with linearly growing mid prices: the training
region has exactly 10 prices. -/
def fs13 : List FeatureRecord := (List.range 13).map fun t => mkFeat t (100 + t)

/-- A snapshot with the given mid price and all other fields trivial
(only the fields read by `calculateFeatures` matter). -/
def mkRec (p : ℚ) : LOBRecord :=
  { timestamp := 0, symbol := "AAPL", midPrice := p, spread := 0
    bidLevels := [], askLevels := [], totalBidVolume := 0
    totalAskVolume := 0, orderImbalance := 0, volatility := 0
    lastTrade := { price := 0, size := 0, side := false } }

/-- Twelve snapshots whose last step has the tiny relative return
`4e-9`: positive, but rounding to 8 decimals stores it as `0`. -/
def data12 : List LOBRecord :=
  (List.range 11).map (fun _ => mkRec 1) ++ [mkRec (1 + 1 / 250000000)]

/-! Helper lemmas. -/

lemma getD_mem {α : Type} (l : List α) (n : ℕ) (d : α) (h : n < l.length) :
    l.getD n d ∈ l := by
  rw [List.getD_eq_getElem l d h]
  exact List.getElem_mem h

lemma genAux_length (g u sv : ℕ → ℚ) :
    ∀ (fuel i : ℕ) (p v : ℚ), (genAux g u sv i fuel p v).length = fuel := by
  intro fuel
  induction fuel with
  | zero => intro i p v; rfl
  | succ n ih => intro i p v; simp only [genAux, List.length_cons, ih]

lemma pricesOf_length (features : List FeatureRecord) :
    (pricesOf features).length = features.length := by
  simp [pricesOf]

lemma returnsOf_length (features : List FeatureRecord) :
    (returnsOf features).length = features.length - 1 := by
  simp [returnsOf, pricesOf]

lemma trainSize_lt (features : List FeatureRecord) (h : 1 ≤ features.length) :
    trainSizeOf features < features.length := by
  unfold trainSizeOf
  rw [Nat.div_lt_iff_lt_mul (by norm_num)]
  omega

lemma trainSize_le (features : List FeatureRecord) :
    trainSizeOf features ≤ features.length := by
  rcases Nat.eq_zero_or_pos features.length with h | h
  · unfold trainSizeOf
    omega
  · exact le_of_lt (trainSize_lt features h)

lemma arimaGo_length (features : List FeatureRecord) (ps : List ℚ) :
    ∀ (idx : List ℕ) (hist : List ℚ),
      (arimaGo features ps hist idx).length = idx.length := by
  intro idx
  induction idx with
  | nil => intro hist; rfl
  | cons i rest ih => intro hist; simp only [arimaGo, List.length_cons, ih]

lemma arimaResultsOf_length (features : List FeatureRecord) :
    (arimaResultsOf features).length = features.length - trainSizeOf features := by
  simp only [arimaResultsOf]
  rw [arimaGo_length, List.length_range', pricesOf_length]

lemma garchGo_length (features : List FeatureRecord) (rs : List ℚ) :
    ∀ (idx : List ℕ) (cv : ℚ), (garchGo features rs cv idx).length = idx.length := by
  intro idx
  induction idx with
  | nil => intro cv; rfl
  | cons i rest ih => intro cv; simp only [garchGo, List.length_cons, ih]

lemma garchResultsOf_length (features : List FeatureRecord) :
    (garchResultsOf features).length = features.length - 1 - trainSizeOf features := by
  simp only [garchResultsOf]
  rw [garchGo_length, List.length_range', returnsOf_length]

/-! Claim C6. -/

/-- Claim C6 counterexample: called with `n = 0` (that is, `n < 1`), the
generator does not fail — the source has no validation and no
`InvalidConfig` path — and returns the normal empty snapshot sequence,
which the claim asserts it does not do. -/
theorem generateLOBData_zero_returns_empty :
    generateLOBData zeroStream zeroStream zeroStream 0 = [] := rfl

/-- Claim C6 (amended): the generator has no failure mode at all.  For every
randomness source and every requested count `n` — including `n = 0` —
it returns normally, with exactly `n` snapshots (the empty sequence
when `n = 0`). -/
theorem generateLOBData_total_length (g u sv : ℕ → ℚ) (n : ℕ) :
    (generateLOBData g u sv n).length = n :=
  genAux_length g u sv n 0 150 0.0002

/-! Claim C9. -/

/-- Claim C9: the feature extractor returns exactly `data.length - 10`
feature vectors when `10 < data.length`, and the valid empty sequence
(never an error — the function is total) when `data.length ≤ 10`. -/
theorem calculateFeatures_length_spec (data : List LOBRecord) :
    (calculateFeatures data).length = data.length - 10 ∧
    (data.length ≤ 10 → calculateFeatures data = []) := by
  constructor
  · simp [calculateFeatures]
  · intro h
    simp [calculateFeatures, Nat.sub_eq_zero_of_le h]

/-- Claim C9 witness: evaluated on the concrete 12-snapshot input `data12`. -/
theorem calculateFeatures_length_spec_witness :
    (calculateFeatures data12).length = data12.length - 10 ∧
    (data12.length ≤ 10 → calculateFeatures data12 = []) :=
  calculateFeatures_length_spec data12

/-! Claim C7. -/

/-- Claim C7 counterexample: on `fs6` the training region has only 4 mid
prices (fewer than the 10 the claim says are required), yet the
analysis does not return an `AnalysisUnavailable` error — the source
has no error path — and emits nonempty forecast streams. -/
theorem analysis_short_training_emits_streams :
    trainSizeOf fs6 = 4 ∧
    (runTimeSeriesAnalysis fs6).arimaResults.length = 2 ∧
    (runTimeSeriesAnalysis fs6).garchResults.length = 1 := by decide

/-- Claim C7 (amended): the analysis stage never signals unavailability; it
is a total function.  Even when the training region holds fewer than
10 mid prices, as long as the test region is nonempty it returns a
nonempty price-forecast stream (computed with however few first
differences are available, still divided by 9). -/
theorem analysis_never_unavailable (features : List FeatureRecord)
    (h10 : trainSizeOf features < 10)
    (hT : trainSizeOf features < features.length) :
    (runTimeSeriesAnalysis features).arimaResults ≠ [] := by
  intro hnil
  have hlen := arimaResultsOf_length features
  have h0 : (arimaResultsOf features).length = 0 := by
    have : arimaResultsOf features = [] := hnil
    rw [this]
    rfl
  omega

/-- Claim C7 witness: the amended theorem applied to the concrete 6-feature
input `fs6` (training region of 4 prices). -/
theorem analysis_never_unavailable_witness :
    (runTimeSeriesAnalysis fs6).arimaResults ≠ [] :=
  analysis_never_unavailable fs6 (by decide) (by decide)

/-! Claim C10. -/

/-- Claim C10: for a nonempty feature sequence of length `m` with
`trainSize = floor(0.8 m)`, the analysis emits exactly
`m - trainSize` price forecast points and exactly `m - 1 - trainSize`
volatility forecast points — always one fewer, so the two metric
computations run over streams of different lengths. -/
theorem analysis_stream_lengths (features : List FeatureRecord)
    (h : 1 ≤ features.length) :
    (runTimeSeriesAnalysis features).arimaResults.length =
      features.length - trainSizeOf features ∧
    (runTimeSeriesAnalysis features).garchResults.length =
      features.length - 1 - trainSizeOf features ∧
    (runTimeSeriesAnalysis features).arimaResults.length =
      (runTimeSeriesAnalysis features).garchResults.length + 1 := by
  have h1 := arimaResultsOf_length features
  have h2 := garchResultsOf_length features
  have h3 := trainSize_lt features h
  refine ⟨h1, h2, ?_⟩
  have e1 : (runTimeSeriesAnalysis features).arimaResults.length =
      features.length - trainSizeOf features := h1
  have e2 : (runTimeSeriesAnalysis features).garchResults.length =
      features.length - 1 - trainSizeOf features := h2
  omega

/-- Claim C10 witness: evaluated on the concrete 6-feature input `fs6`
(2 price points, 1 volatility point). -/
theorem analysis_stream_lengths_witness :
    (runTimeSeriesAnalysis fs6).arimaResults.length =
      fs6.length - trainSizeOf fs6 ∧
    (runTimeSeriesAnalysis fs6).garchResults.length =
      fs6.length - 1 - trainSizeOf fs6 ∧
    (runTimeSeriesAnalysis fs6).arimaResults.length =
      (runTimeSeriesAnalysis fs6).garchResults.length + 1 :=
  analysis_stream_lengths fs6 (by decide)

/-! Claim C1. -/

lemma genTick_snd (g : ℕ → ℚ) (u : ℕ → ℚ) (sv : ℚ) (i : ℕ) (p v : ℚ) :
    (genTick (fun k => g (13 * i + k)) u sv i p v).2 = stepState g i (p, v) := rfl

lemma stateFrom_succ_left (g : ℕ → ℚ) (i : ℕ) (s : ℚ × ℚ) :
    ∀ t, stateFrom g (i + 1) (stepState g i s) t = stateFrom g i s (t + 1) := by
  intro t
  induction t with
  | zero => rfl
  | succ t ih =>
    have he : i + 1 + t = i + (t + 1) := by omega
    simp only [stateFrom, ih, he]

lemma genAux_getD (g u sv : ℕ → ℚ) :
    ∀ (fuel t i : ℕ) (p v : ℚ), t < fuel →
      (genAux g u sv i fuel p v).getD t default =
        (genTick (fun k => g (13 * (i + t) + k)) (fun k => u (12 * (i + t) + k))
          (sv (i + t)) (i + t) (stateFrom g i (p, v) t).1
          (stateFrom g i (p, v) t).2).1 := by
  intro fuel
  induction fuel with
  | zero => intro t i p v ht; omega
  | succ n ih =>
    intro t i p v ht
    match t with
    | 0 =>
      simp only [genAux, List.getD_cons_zero, stateFrom, Nat.add_zero]
    | t + 1 =>
      simp only [genAux, List.getD_cons_succ]
      rw [ih t (i + 1) _ _ (by omega)]
      have hs : ((genTick (fun k => g (13 * i + k)) (fun k => u (12 * i + k))
          (sv i) i p v).2.1,
          (genTick (fun k => g (13 * i + k)) (fun k => u (12 * i + k))
          (sv i) i p v).2.2) = stepState g i (p, v) := by
        rw [Prod.mk.eta]
        exact genTick_snd g (fun k => u (12 * i + k)) (sv i) i p v
      rw [hs, stateFrom_succ_left]
      have he : i + 1 + t = i + (t + 1) := by omega
      simp only [he]

/-- Claim C1 counterexample: run one tick on the gaussian stream whose
volatility draw (number 0) is `0` and whose price draw (number 1) is
`1`.  The claim says the new price is computed from the same shock as
the volatility update, i.e. `max(150 + 0 · vol' · 150, 1) = 150`,
stored as `round4 150 = 150`; the code consumes a fresh draw
(`1`) for the price change and stores `150.0285`. -/
theorem price_change_not_same_shock :
    ((generateLOBData gOneStream zeroStream zeroStream 1).getD 0 default).midPrice ≠
      round4 (tickPrice 150 (tickVol 0.0002 (gOneStream 0)) (gOneStream 0)) := by
  with_unfolding_all decide

/-- Claim C1 (amended): per tick `t`, the volatility is updated with the
gaussian draw number `13t` (`shock`) and the new price is
`max(price + z · volatility' · price, 1.0)` where `z` is the next,
fresh gaussian draw (number `13t + 1`), consumed after the volatility
update — not the shock itself.  The stored `midPrice`/`volatility`
fields follow this recursion (`stepState`) under 4/6-decimal rounding. -/
theorem simulator_price_vol_recursion (g u sv : ℕ → ℚ) (n t : ℕ) (ht : t < n) :
    ((generateLOBData g u sv n).getD t default).midPrice =
      round4 (stateTraj g (t + 1)).1 ∧
    ((generateLOBData g u sv n).getD t default).volatility =
      round6 (stateTraj g (t + 1)).2 := by
  have h := genAux_getD g u sv n t 0 150 0.0002 ht
  unfold generateLOBData
  rw [h]
  simp only [stateTraj, stateFrom, Nat.zero_add]
  constructor <;> rfl

/-- Claim C1 witness: the amended recursion evaluated at one tick of the
stream `gOneStream`. -/
theorem simulator_price_vol_recursion_witness :
    ((generateLOBData gOneStream zeroStream zeroStream 1).getD 0 default).midPrice =
      round4 (stateTraj gOneStream 1).1 ∧
    ((generateLOBData gOneStream zeroStream zeroStream 1).getD 0 default).volatility =
      round6 (stateTraj gOneStream 1).2 :=
  simulator_price_vol_recursion gOneStream zeroStream zeroStream 1 0 (by norm_num)

/-! Claim C4. -/

lemma calculateFeatures_getD (data : List LOBRecord) (j : ℕ)
    (h : j < data.length - 10) :
    (calculateFeatures data).getD j default = featAt data (j + 10) := by
  unfold calculateFeatures
  rw [List.getD_eq_getElem _ _ (by simpa using h)]
  simp

/-- Claim C4 counterexample: on `data12` the feature at index 0 has raw
future return `4e-9 > 0`, so `futureDirection = 1`, but the stored
`futureReturn` field is rounded to 8 decimals and becomes `0`, whose
three-valued sign is `0 ≠ 1`.  The stored direction does not equal the
sign of the stored return. -/
theorem futureDirection_vs_stored_sign :
    ((calculateFeatures data12).getD 0 default).futureDirection = 1 ∧
    ((calculateFeatures data12).getD 0 default).futureReturn = 0 ∧
    threeSign (((calculateFeatures data12).getD 0 default).futureReturn) ≠
      ((calculateFeatures data12).getD 0 default).futureDirection := by
  with_unfolding_all decide

/-- Claim C4 (amended): every stored `futureDirection` equals the
three-valued sign of the raw, unrounded future return
`(mid_{i+1} - mid_i) / mid_i` (or `0` at the last index) — not of the
8-decimal-rounded stored `futureReturn` field, which can collapse a
tiny nonzero return to `0`. -/
theorem futureDirection_from_unrounded (data : List LOBRecord) (j : ℕ)
    (h : j < (calculateFeatures data).length) :
    ((calculateFeatures data).getD j default).futureDirection =
      threeSign (rawFutureReturn data (j + 10)) := by
  have h' : j < data.length - 10 := by simpa [calculateFeatures] using h
  rw [calculateFeatures_getD data j h']
  rfl

/-- Claim C4 witness: the amended statement evaluated at the first feature of
`data12`. -/
theorem futureDirection_from_unrounded_witness :
    ((calculateFeatures data12).getD 0 default).futureDirection =
      threeSign (rawFutureReturn data12 (0 + 10)) :=
  futureDirection_from_unrounded data12 0 (by with_unfolding_all decide)

/-! Claim C3. -/

lemma countP_getD_range {α : Type} (l : List α) (p : α → Bool) (d : α) :
    l.countP p = (List.range l.length).countP fun j => p (l.getD j d) := by
  induction l with
  | nil => rfl
  | cons x t ih =>
    rw [List.countP_cons, List.length_cons, List.range_succ_eq_map,
      List.countP_cons, List.countP_map]
    simp only [List.getD_cons_zero, Function.comp_def, List.getD_cons_succ]
    rw [ih]

lemma correctDir_eq_dirMatchCount (a p : List ℚ) (hl : a.length = p.length) :
    ((List.range a.length).countP fun i =>
      decide (1 ≤ i) &&
        (decide (a.getD i 0 > a.getD (i - 1) 0) ==
          decide (p.getD i 0 > p.getD (i - 1) 0))) = dirMatchCount a p := by
  rcases hn : a.length with _ | m
  · have ha : a = [] := List.length_eq_zero.mp hn
    have hp : p = [] := List.length_eq_zero.mp (hl ▸ hn)
    subst ha hp
    rfl
  · unfold dirMatchCount
    rw [countP_getD_range _ _ ((0, 0), (0, 0))]
    have hzl : ((a.tail.zip a).zip (p.tail.zip p)).length = m := by
      simp only [List.length_zip, List.length_tail, hn, ← hl]
      omega
    rw [hzl, List.range_succ_eq_map, List.countP_cons, List.countP_map]
    have hif : (if (decide (1 ≤ 0) &&
        (decide (a.getD 0 0 > a.getD (0 - 1) 0) ==
          decide (p.getD 0 0 > p.getD (0 - 1) 0))) = true then 1 else 0) = 0 := by
      simp
    rw [hif, Nat.add_zero]
    apply List.countP_congr
    intro j hj
    have hjm : j < m := List.mem_range.mp hj
    have hj1 : j + 1 < a.length := by omega
    have hja : j < a.length := by omega
    have hj1p : j + 1 < p.length := by omega
    have hjp : j < p.length := by omega
    have hjz : j < ((a.tail.zip a).zip (p.tail.zip p)).length := by omega
    rw [List.getD_eq_getElem _ _ hjz, List.getElem_zip, List.getElem_zip,
      List.getElem_zip, List.getElem_tail, List.getElem_tail]
    simp only [Function.comp_def, Nat.succ_sub_one]
    simp only [List.getD_eq_getElem a 0 hj1, List.getD_eq_getElem a 0 hja,
      List.getD_eq_getElem p 0 hj1p, List.getD_eq_getElem p 0 hjp]
    have h1le : (1 ≤ j + 1) := Nat.succ_le_succ (Nat.zero_le j)
    simp [h1le]

/-- Claim C3 counterexample: on `actual = [1, 1]`, `predicted = [2, 1]`, the
single step has `actual` flat and `predicted` falling; the claim's
three-valued sign comparison rejects the match (`0 ≠ -1`, accuracy
`0`), but `calcMetrics` compares the booleans `actual_1 > actual_0`
(false) and `predicted_1 > predicted_0` (false) and counts it as a
match, returning accuracy `100`. -/
theorem directionAccuracy_not_threeSign :
    (calcMetrics [1, 1] [2, 1]).directionAccuracy = 100 ∧
    directionAccuracySpec [1, 1] [2, 1] = 0 ∧
    (calcMetrics [1, 1] [2, 1]).directionAccuracy ≠
      directionAccuracySpec [1, 1] [2, 1] := by
  with_unfolding_all decide

/-- Claim C3 (amended): for equal-length streams with `n ≥ 2`,
`directionAccuracy = 100 · count((actual_i > actual_{i-1}) ==
(predicted_i > predicted_{i-1})) / (n - 1)` over `i ∈ [1, n)`: the
directions are compared as the booleans "strictly increased", so a
zero change matches any non-increase, not only a zero change. -/
theorem directionAccuracy_boolean_direction (a p : List ℚ)
    (hl : a.length = p.length) (hn : 2 ≤ a.length) :
    (calcMetrics a p).directionAccuracy =
      100 * (dirMatchCount a p : ℚ) / ((a.length : ℚ) - 1) := by
  have h := correctDir_eq_dirMatchCount a p hl
  simp only [calcMetrics]
  rw [h]
  ring

/-- Claim C3 witness: the amended formula evaluated at the counterexample
input (one flat actual step, one falling predicted step). -/
theorem directionAccuracy_boolean_direction_witness :
    (calcMetrics [1, 1] [2, 1]).directionAccuracy =
      100 * (dirMatchCount [1, 1] [2, 1] : ℚ) /
        ((([1, 1] : List ℚ).length : ℚ) - 1) :=
  directionAccuracy_boolean_direction [1, 1] [2, 1] rfl (by norm_num)

/-! Claim C2. -/

lemma returns_getD_zero (rs : List ℚ) (h : ∀ r ∈ rs, r = 0) (i : ℕ) :
    rs.getD i 0 = 0 := by
  rcases Nat.lt_or_ge i rs.length with hi | hi
  · rw [List.getD_eq_getElem _ _ hi]
    exact h _ (List.getElem_mem hi)
  · exact List.getD_eq_default _ _ hi

lemma foldl_garchUpdate_zero :
    ∀ (l : List ℚ), (∀ r ∈ l, r = 0) → ∀ cv : ℚ,
      l.foldl garchUpdate cv =
        0.85 ^ l.length * cv + 0.00001 * (1 - 0.85 ^ l.length) / (1 - 0.85) := by
  intro l
  induction l with
  | nil => intro h cv; norm_num
  | cons r t ih =>
    intro h cv
    have hr : r = 0 := h r (by simp)
    have ht : ∀ x ∈ t, x = 0 := fun x hx => h x (by simp [hx])
    subst hr
    rw [List.foldl_cons, ih ht, List.length_cons, pow_succ]
    unfold garchUpdate
    ring

lemma garchGo_zero (features : List FeatureRecord) (rs : List ℚ)
    (h : ∀ r ∈ rs, r = 0) :
    ∀ (idx : List ℕ) (cv : ℚ) (j : ℕ), j < idx.length →
      ((garchGo features rs cv idx).getD j default).conditionalVariance =
        0.85 ^ j * cv + 0.00001 * (1 - 0.85 ^ j) / (1 - 0.85) := by
  intro idx
  induction idx with
  | nil =>
    intro cv j hj
    simp at hj
  | cons i rest ih =>
    intro cv j hj
    match j with
    | 0 =>
      simp only [garchGo, List.getD_cons_zero]
      norm_num
    | j + 1 =>
      simp only [garchGo, List.getD_cons_succ]
      have hlt : j < rest.length := by
        simp only [List.length_cons] at hj
        omega
      rw [ih _ j hlt, returns_getD_zero rs h i, pow_succ]
      unfold garchUpdate
      ring

lemma garchZeroVar_shift (k j : ℕ) :
    0.85 ^ j * garchZeroVar k + 0.00001 * (1 - 0.85 ^ j) / (1 - 0.85) =
      garchZeroVar (k + j) := by
  unfold garchZeroVar
  rw [pow_add]
  ring

lemma garchZeroVar_decr (t : ℕ) : garchZeroVar (t + 1) < garchZeroVar t := by
  have hp : (0:ℚ) < 0.85 ^ t := by positivity
  have hd : garchZeroVar t - garchZeroVar (t + 1) = 0.000005 * 0.85 ^ t := by
    unfold garchZeroVar
    rw [pow_succ]
    ring
  linarith

/-- Claim C2 counterexample: eleven equal-price features (`fs11z`), so every
return is `0` and `trainSize = 8`.  The first emitted conditional
variance is `0.85^8 · 1e-4 + omega·(1 - 0.85^8)/(1 - beta)`, not the
claim's `omega·(1 - beta^8)/(1 - beta)` (the claim drops the decaying
seed term), and the second emission differs from the first — the
emitted `forecastVolatility = sqrt(condVar)` strictly decreases rather
than staying constant. -/
theorem garch_formula_and_constancy_fail :
    ((runTimeSeriesAnalysis fs11z).garchResults.getD 0 default).conditionalVariance ≠
      0.00001 * (1 - (0.85:ℚ) ^ 8) / (1 - 0.85) ∧
    ((runTimeSeriesAnalysis fs11z).garchResults.getD 0 default).conditionalVariance ≠
      ((runTimeSeriesAnalysis fs11z).garchResults.getD 1 default).conditionalVariance ∧
    forecastVolatility ((runTimeSeriesAnalysis fs11z).garchResults.getD 1 default) <
      forecastVolatility ((runTimeSeriesAnalysis fs11z).garchResults.getD 0 default) := by
  refine ⟨by with_unfolding_all decide, by with_unfolding_all decide, ?_⟩
  unfold forecastVolatility
  have h1 : (0:ℚ) ≤
      ((runTimeSeriesAnalysis fs11z).garchResults.getD 1 default).conditionalVariance := by
    with_unfolding_all decide
  have h2 : ((runTimeSeriesAnalysis fs11z).garchResults.getD 1 default).conditionalVariance <
      ((runTimeSeriesAnalysis fs11z).garchResults.getD 0 default).conditionalVariance := by
    with_unfolding_all decide
  apply Real.sqrt_lt_sqrt
  · exact_mod_cast h1
  · exact_mod_cast h2

/-- Claim C2 (amended): if every return in training and test is `0`, then
after the `k` warm-up updates the conditional variance equals
`beta^k · 1e-4 + omega·(1 - beta^k)/(1 - beta)` — the claimed
`omega·(1 - beta^k)/(1 - beta)` plus the decaying seed term
`beta^k · 1e-4` —, the `j`-th emitted point carries the same closed
form at `k + j` (the recursion keeps updating between emissions), and
consecutive emitted conditional variances strictly decrease, so the
emitted forecasts are not constant. -/
theorem garch_zero_returns_variance (features : List FeatureRecord)
    (hz : ∀ r ∈ returnsOf features, r = 0) :
    garchWarm features =
      garchZeroVar ((returnsOf features).take (trainSizeOf features)).length ∧
    (∀ j, j < (runTimeSeriesAnalysis features).garchResults.length →
      ((runTimeSeriesAnalysis features).garchResults.getD j default).conditionalVariance =
        garchZeroVar (((returnsOf features).take (trainSizeOf features)).length + j)) ∧
    (∀ j, j + 1 < (runTimeSeriesAnalysis features).garchResults.length →
      ((runTimeSeriesAnalysis features).garchResults.getD (j + 1) default).conditionalVariance <
        ((runTimeSeriesAnalysis features).garchResults.getD j default).conditionalVariance) := by
  have htake : ∀ r ∈ (returnsOf features).take (trainSizeOf features), r = 0 :=
    fun r hr => hz r (List.mem_of_mem_take hr)
  have hwarm : garchWarm features =
      garchZeroVar ((returnsOf features).take (trainSizeOf features)).length := by
    unfold garchWarm garchZeroVar
    rw [foldl_garchUpdate_zero _ htake 0.0001]
  have hpoint : ∀ j, j < (runTimeSeriesAnalysis features).garchResults.length →
      ((runTimeSeriesAnalysis features).garchResults.getD j default).conditionalVariance =
        garchZeroVar (((returnsOf features).take (trainSizeOf features)).length + j) := by
    intro j hj
    have hj' : j < (List.range' (trainSizeOf features)
        ((returnsOf features).length - trainSizeOf features)).length := by
      rw [List.length_range']
      have : (runTimeSeriesAnalysis features).garchResults.length =
          (returnsOf features).length - trainSizeOf features := by
        show (garchResultsOf features).length = _
        simp only [garchResultsOf]
        rw [garchGo_length, List.length_range']
      omega
    show ((garchResultsOf features).getD j default).conditionalVariance = _
    simp only [garchResultsOf]
    rw [garchGo_zero features (returnsOf features) hz _ (garchWarm features) j hj',
      hwarm, garchZeroVar_shift]
  refine ⟨hwarm, hpoint, ?_⟩
  intro j hj
  rw [hpoint (j + 1) hj, hpoint j (by omega)]
  have hd := garchZeroVar_decr
    (((returnsOf features).take (trainSizeOf features)).length + j)
  have he : ((returnsOf features).take (trainSizeOf features)).length + (j + 1) =
      (((returnsOf features).take (trainSizeOf features)).length + j) + 1 := by omega
  rw [he]
  exact hd

/-- Claim C2 witness: the warm-up closed form evaluated on the concrete
all-zero-returns input `fs11z`. -/
theorem garch_zero_returns_variance_witness :
    garchWarm fs11z =
      garchZeroVar ((returnsOf fs11z).take (trainSizeOf fs11z)).length :=
  (garch_zero_returns_variance fs11z (by with_unfolding_all decide)).1

/-! Claim C8. -/

lemma arimaStep_take (ps : List ℚ) (i : ℕ) (hi : i ≤ ps.length) :
    arimaStep (ps.take i) =
      (ps.take i).getLastD 0 + 0.7 * (sumDiffs ((ps.take i).drop (i - 10)) / 9) := by
  unfold arimaStep
  rw [List.length_take, Nat.min_eq_left hi]
  ring

lemma arimaGo_eq (features : List FeatureRecord) (ps : List ℚ) :
    ∀ (c s : ℕ), s + c ≤ ps.length →
      arimaGo features ps (ps.take s) (List.range' s c) =
        (List.range' s c).map (expectedArima features ps) := by
  intro c
  induction c with
  | zero => intro s hs; rfl
  | succ n ih =>
    intro s hs
    rw [List.range'_succ, List.map_cons]
    simp only [arimaGo]
    congr 1
    · rw [arimaStep_take ps s (by omega)]
      rfl
    · have hsl : s < ps.length := by omega
      have htake : ps.take s ++ [ps.getD s 0] = ps.take (s + 1) := by
        rw [List.getD_eq_getElem ps 0 hsl, List.take_succ,
          List.getElem?_eq_getElem hsl]
        rfl
      rw [htake]
      exact ih (s + 1) (by omega)

/-- Claim C8: when the training region holds at least 10 mid prices, the
`j`-th emitted forecast point at test index `i = trainSize + j` is
exactly `expectedArima`: `actual = prices[i]`,
`predicted = lastPrice + 0.7 · avgChange` computed from
`prices.take i` — only mid prices strictly before `i`, because the
realized actual (not the prediction) is appended to the history after
each step — with `avgChange` the mean of the 9 first differences over
the last 10 of those prices, and `error = actual - predicted`. -/
theorem arima_walk_forward (features : List FeatureRecord)
    (h10 : 10 ≤ trainSizeOf features) (j : ℕ)
    (hj : j < (runTimeSeriesAnalysis features).arimaResults.length) :
    (runTimeSeriesAnalysis features).arimaResults.getD j default =
      expectedArima features (pricesOf features) (trainSizeOf features + j) := by
  have hts : trainSizeOf features ≤ (pricesOf features).length := by
    rw [pricesOf_length]
    exact trainSize_le features
  have heq : (runTimeSeriesAnalysis features).arimaResults =
      (List.range' (trainSizeOf features)
        ((pricesOf features).length - trainSizeOf features)).map
        (expectedArima features (pricesOf features)) := by
    show arimaResultsOf features = _
    simp only [arimaResultsOf]
    exact arimaGo_eq features (pricesOf features)
      ((pricesOf features).length - trainSizeOf features) (trainSizeOf features)
      (by omega)
  have hj' : j < (pricesOf features).length - trainSizeOf features := by
    rw [heq] at hj
    simpa using hj
  rw [heq, List.getD_eq_getElem _ _ (by simpa using hj'), List.getElem_map,
    List.getElem_range']
  rw [one_mul]

/-- Claim C8 witness: the walk-forward formula evaluated at the first test
index of the concrete 13-feature input `fs13` (training region of
exactly 10 prices). -/
theorem arima_walk_forward_witness :
    (runTimeSeriesAnalysis fs13).arimaResults.getD 0 default =
      expectedArima fs13 (pricesOf fs13) (trainSizeOf fs13 + 0) :=
  arima_walk_forward fs13 (by with_unfolding_all decide) 0
    (by with_unfolding_all decide)

/-! Claim C5. -/

lemma jsRound_mono {x y : ℚ} (h : x ≤ y) : jsRound x ≤ jsRound y :=
  Int.floor_le_floor (by linarith)

lemma le_jsRound_of_le {z : ℤ} {x : ℚ} (h : (z : ℚ) ≤ x) : z ≤ jsRound x := by
  unfold jsRound
  rw [Int.le_floor]
  push_cast
  linarith

lemma jsRound_le_of_le {z : ℤ} {x : ℚ} (h : x ≤ (z : ℚ)) : jsRound x ≤ z := by
  unfold jsRound
  have h2 : ⌊((z : ℚ) + 1 / 2)⌋ = z := by
    rw [add_comm, Int.floor_add_int, Int.floor_eq_zero_iff.mpr (by norm_num)]
    omega
  calc ⌊x + 1 / 2⌋ ≤ ⌊((z : ℚ) + 1 / 2)⌋ := Int.floor_le_floor (by linarith)
    _ = z := h2

lemma round2_mono {x y : ℚ} (h : x ≤ y) : round2 x ≤ round2 y := by
  unfold round2
  have h1 : jsRound (x * 100) ≤ jsRound (y * 100) :=
    jsRound_mono (by linarith)
  gcongr

lemma one_le_round4 {x : ℚ} (h : 1 ≤ x) : 1 ≤ round4 x := by
  unfold round4
  rw [le_div_iff (by norm_num)]
  have h2 : (10000 : ℤ) ≤ jsRound (x * 10000) :=
    le_jsRound_of_le (by push_cast; linarith)
  have h3 : ((10000 : ℤ) : ℚ) ≤ (jsRound (x * 10000) : ℚ) := by exact_mod_cast h2
  push_cast at h3 ⊢
  linarith

lemma round4_pos {x : ℚ} (h : 0.01 ≤ x) : 0 < round4 x := by
  unfold round4
  apply div_pos ?_ (by norm_num)
  have h2 : (100 : ℤ) ≤ jsRound (x * 10000) :=
    le_jsRound_of_le (by push_cast; linarith)
  have h3 : ((100 : ℤ) : ℚ) ≤ (jsRound (x * 10000) : ℚ) := by exact_mod_cast h2
  push_cast at h3
  linarith

lemma round4_ge_neg08 {x : ℚ} (h : -0.8 ≤ x) : -0.8 ≤ round4 x := by
  unfold round4
  rw [le_div_iff (by norm_num)]
  have h2 : (-8000 : ℤ) ≤ jsRound (x * 10000) :=
    le_jsRound_of_le (by push_cast; linarith)
  have h3 : ((-8000 : ℤ) : ℚ) ≤ (jsRound (x * 10000) : ℚ) := by exact_mod_cast h2
  push_cast at h3 ⊢
  linarith

lemma round4_le_08 {x : ℚ} (h : x ≤ 0.8) : round4 x ≤ 0.8 := by
  unfold round4
  rw [div_le_iff (by norm_num)]
  have h2 : jsRound (x * 10000) ≤ (8000 : ℤ) :=
    jsRound_le_of_le (by push_cast; linarith)
  have h3 : (jsRound (x * 10000) : ℚ) ≤ ((8000 : ℤ) : ℚ) := by exact_mod_cast h2
  push_cast at h3 ⊢
  linarith

lemma tickVol_pos (shock : ℚ) {vol : ℚ} (hv : 0 < vol) : 0 < tickVol vol shock := by
  unfold tickVol
  have ha := abs_nonneg shock
  linarith

lemma one_le_tickPrice (price vol' z : ℚ) : 1 ≤ tickPrice price vol' z :=
  le_max_right _ _

lemma tickSpread_gt {vol' : ℚ} (hv : 0 < vol') : 0.01 < tickSpread vol' := by
  unfold tickSpread
  have h1 : 0 < vol' / 0.0002 := div_pos hv (by norm_num)
  linarith

lemma tickImb_lb (sv z : ℚ) : -0.8 ≤ tickImb sv z := le_max_left _ _

lemma tickImb_ub (sv z : ℚ) : tickImb sv z ≤ 0.8 :=
  max_le (by norm_num) (min_le_left _ _)

lemma mkBidLevel_price_mono (price spread imb gz1 uz1 gz2 uz2 L1 L2 : ℚ)
    (hL : L1 ≤ L2) (hs : 0 ≤ spread) :
    (mkBidLevel price spread imb gz2 uz2 L2).price ≤
      (mkBidLevel price spread imb gz1 uz1 L1).price := by
  unfold mkBidLevel
  apply round2_mono
  nlinarith

lemma mkAskLevel_price_mono (price spread imb gz1 uz1 gz2 uz2 L1 L2 : ℚ)
    (hL : L1 ≤ L2) (hs : 0 ≤ spread) :
    (mkAskLevel price spread imb gz1 uz1 L1).price ≤
      (mkAskLevel price spread imb gz2 uz2 L2).price := by
  unfold mkAskLevel
  apply round2_mono
  nlinarith

lemma genTick_inv (g u : ℕ → ℚ) (sv : ℚ) (i : ℕ) (price vol : ℚ)
    (hp : 1 ≤ price) (hv : 0 < vol) :
    snapshotInv (genTick g u sv i price vol).1 ∧
    1 ≤ (genTick g u sv i price vol).2.1 ∧
    0 < (genTick g u sv i price vol).2.2 := by
  have hv' : 0 < tickVol vol (g 0) := tickVol_pos (g 0) hv
  have hp' : (1 : ℚ) ≤ tickPrice price (tickVol vol (g 0)) (g 1) :=
    one_le_tickPrice _ _ _
  have hs : (0.01 : ℚ) < tickSpread (tickVol vol (g 0)) := tickSpread_gt hv'
  have hs0 : (0 : ℚ) ≤ tickSpread (tickVol vol (g 0)) := by linarith
  refine ⟨?_, hp', hv'⟩
  unfold snapshotInv
  refine ⟨?_, rfl, rfl, ?_, ?_, ?_, ?_, ?_, ?_, ?_⟩
  · exact one_le_round4 hp'
  · intro l hl
    simp only [genTick, List.mem_cons, List.not_mem_nil, or_false] at hl
    rcases hl with rfl | rfl | rfl | rfl | rfl <;> exact le_max_left _ _
  · intro l hl
    simp only [genTick, List.mem_cons, List.not_mem_nil, or_false] at hl
    rcases hl with rfl | rfl | rfl | rfl | rfl <;> exact le_max_left _ _
  · show List.Chain' _ [_, _, _, _, _]
    simp only [List.chain'_cons, List.chain'_singleton, and_true]
    refine ⟨?_, ?_, ?_, ?_⟩ <;>
      exact mkBidLevel_price_mono _ _ _ _ _ _ _ _ _ (by norm_num) hs0
  · show List.Chain' _ [_, _, _, _, _]
    simp only [List.chain'_cons, List.chain'_singleton, and_true]
    refine ⟨?_, ?_, ?_, ?_⟩ <;>
      exact mkAskLevel_price_mono _ _ _ _ _ _ _ _ _ (by norm_num) hs0
  · exact round4_pos (le_of_lt hs)
  · exact round4_ge_neg08 (tickImb_lb sv (g 2))
  · exact round4_le_08 (tickImb_ub sv (g 2))

lemma genAux_inv (g u sv : ℕ → ℚ) :
    ∀ (fuel i : ℕ) (price vol : ℚ), 1 ≤ price → 0 < vol →
      ∀ r ∈ genAux g u sv i fuel price vol, snapshotInv r := by
  intro fuel
  induction fuel with
  | zero => intro i price vol hp hv r hr; simp [genAux] at hr
  | succ n ih =>
    intro i price vol hp hv r hr
    simp only [genAux, List.mem_cons] at hr
    have hstep := genTick_inv (fun k => g (13 * i + k)) (fun k => u (12 * i + k))
      (sv i) i price vol hp hv
    rcases hr with rfl | hr
    · exact hstep.1
    · exact ih (i + 1) _ _ hstep.2.1 hstep.2.2 r hr

/-- Claim C5 (amended): every generated snapshot, for every randomness
source and count, satisfies: `midPrice ≥ 1.0`, exactly 5 levels per
side, all level sizes `≥ 100`, stored bid prices *weakly* decreasing
and stored ask prices *weakly* increasing in the level index (the raw
prices are strictly monotone, but the 2-decimal rounding can merge
adjacent levels, so strictness fails), `spread > 0`, and
`orderImbalance ∈ [-0.8, 0.8]`. -/
theorem snapshot_invariants (g u sv : ℕ → ℚ) (n : ℕ) (r : LOBRecord)
    (hr : r ∈ generateLOBData g u sv n) : snapshotInv r :=
  genAux_inv g u sv n 0 150 0.0002 (by norm_num) (by norm_num) r hr

/-- Claim C5 witness: the invariants checked on the first snapshot of a
one-tick run over the all-zero streams. -/
theorem snapshot_invariants_witness :
    snapshotInv ((generateLOBData zeroStream zeroStream zeroStream 1).getD 0 default) :=
  snapshot_invariants zeroStream zeroStream zeroStream 1 _
    (getD_mem _ 0 _ (by
      show 0 < (genAux zeroStream zeroStream zeroStream 0 1 150 0.0002).length
      rw [genAux_length]
      norm_num))

lemma round2_eq_round2_of_floor {x y : ℚ}
    (hx : ⌊x * 100 + 1 / 2⌋ = ⌊y * 100 + 1 / 2⌋) : round2 x = round2 y := by
  unfold round2 jsRound
  rw [hx]

lemma stateFrom_zero :
    ∀ t, stateFrom zeroStream 0 (150, 0.0002) t = (150, 0.0002 * 0.95 ^ t) := by
  intro t
  induction t with
  | zero => simp [stateFrom]
  | succ t ih =>
    simp only [stateFrom, ih, stepState, tickVol, tickPrice, zeroStream,
      Prod.mk.injEq]
    constructor
    · norm_num
    · rw [pow_succ]
      ring_nf
      norm_num

/-- Claim C5 counterexample: with an all-zero gaussian stream (realizable by
a uniform source whose second Box-Muller draw is always `1/4`), the
volatility decays to `0.0002·0.95^t` and the price stays at `150`.
At tick 27 the spread is small enough that the stored (2-decimal
rounded) prices of levels 0 and 1 coincide on both sides of the book:
the stored bid prices are not strictly decreasing and the stored ask
prices are not strictly increasing.  (The sine stream is taken as `0`;
it only influences sizes, order counts and the trade side, not any
price field.) -/
theorem stored_prices_not_strictly_monotone :
    (((generateLOBData zeroStream zeroStream zeroStream 28).getD 27
        default).bidLevels.getD 0 default).price =
      (((generateLOBData zeroStream zeroStream zeroStream 28).getD 27
        default).bidLevels.getD 1 default).price ∧
    (((generateLOBData zeroStream zeroStream zeroStream 28).getD 27
        default).askLevels.getD 0 default).price =
      (((generateLOBData zeroStream zeroStream zeroStream 28).getD 27
        default).askLevels.getD 1 default).price := by
  have h := genAux_getD zeroStream zeroStream zeroStream 28 27 0 150 0.0002
    (by norm_num)
  have hst := stateFrom_zero 27
  unfold generateLOBData
  rw [h, hst]
  simp only [genTick, mkBidLevel, mkAskLevel, tickPrice, tickVol, tickSpread,
    tickImb, zeroStream, List.getD_cons_zero, List.getD_cons_succ]
  simp only [abs_zero, mul_zero, zero_mul, add_zero, zero_add, one_mul]
  rw [show ((150 : ℚ) ⊔ 1) = 150 from max_eq_left (by norm_num)]
  have hb0 : (0 : ℚ) < (0.95 : ℚ) ^ 27 := by positivity
  have hb1 : (0.95 : ℚ) ^ 27 < 5 / 19 := by norm_num
  constructor
  · apply round2_eq_round2_of_floor
    trans (14999 : ℤ)
    · rw [Int.floor_eq_iff]
      constructor
      · push_cast
        linarith
      · push_cast
        linarith
    · symm
      rw [Int.floor_eq_iff]
      constructor
      · push_cast
        linarith
      · push_cast
        linarith
  · apply round2_eq_round2_of_floor
    trans (15001 : ℤ)
    · rw [Int.floor_eq_iff]
      constructor
      · push_cast
        linarith
      · push_cast
        linarith
    · symm
      rw [Int.floor_eq_iff]
      constructor
      · push_cast
        linarith
      · push_cast
        linarith

end LOB
